import Mathlib

/-!
Verification of the NESsie 6502 CPU core (src/cpu.rs) against its
natural-language specification.

Shallow embedding conventions:
* `u8` / `u16` values are `Nat`s; a Rust `as u8` cast is `% 256`, an `as u16`
  widening is the identity, and wrapping arithmetic is `% 256` / `% 65536`.
* The memory array `[u8; 0xffff]` is a total function `Nat → Nat` together
  with the explicit bound `MEMSIZE = 0xffff`: an access at `addr ≥ MEMSIZE`
  is a Rust index-out-of-bounds panic, modelled as `Except.error`.
* Rust panics (`unwrap` on a missing table entry, `todo!` on an unimplemented
  opcode, `panic!` on an unsupported addressing mode, slice index errors) are
  the constructors of `RunError`; fallible operations return
  `Except RunError _` and a panic aborts the computation exactly where the
  Rust evaluation order places it.
-/

namespace NESsie

/-- Size of the memory array: `memory: [u8; 0xffff]` in `cpu.rs` holds
0xffff bytes, so valid indices are `0 ≤ a < 0xffff`. -/
def MEMSIZE : Nat := 0xffff

/-- The CPU state of `struct CPU` in `cpu.rs`: registers `a`, `x`, `y`, the
status byte, the 16-bit program counter and the flat memory. -/
structure CPU where
  register_a : Nat
  register_x : Nat
  register_y : Nat
  status : Nat
  program_counter : Nat
  memory : Nat → Nat

/-- `CPU::new()`: all registers, status, PC zero and memory zeroed. -/
def CPU.new : CPU :=
  { register_a := 0, register_x := 0, register_y := 0, status := 0,
    program_counter := 0, memory := fun _ => 0 }

/-- The `AddressingMode` enum of `cpu.rs`. -/
inductive AddressingMode where
  | Immediate
  | ZeroPage
  | ZeroPage_X
  | ZeroPage_Y
  | Absolute
  | Absolute_X
  | Absolute_Y
  | Indirect_X
  | Indirect_Y
  | Indirect
  | Accumulator
  | Relative
  | Implied
deriving DecidableEq

/-- The distinct panic paths of `cpu.rs`. -/
inductive RunError where
  /-- `opcodes.get(&opcode).unwrap()` panics: opcode byte has no table entry. -/
  | unwrapNone (opcode : Nat)
  /-- `todo!("opcode …")`: the opcode is in the table but its handler is not
  yet implemented (the catch-all arm of the `match` in `run`). -/
  | todoOpcode (opcode : Nat)
  /-- `panic!("mode {:?} is not supported", mode)` in `get_operand_address`. -/
  | modeNotSupported
  /-- Rust index-out-of-bounds panic on the memory array or a slice. -/
  | indexOutOfBounds
deriving DecidableEq

/-- `CPU::mem_read`: `self.memory[addr as usize]`; panics (error) when
`addr` is not a valid index of the 0xffff-byte array. -/
def mem_read (cpu : CPU) (addr : Nat) : Except RunError Nat :=
  if addr < MEMSIZE then .ok (cpu.memory addr) else .error .indexOutOfBounds

/-- `CPU::mem_write`: `self.memory[addr as usize] = data`. -/
def mem_write (cpu : CPU) (addr data : Nat) : Except RunError CPU :=
  if addr < MEMSIZE then
    .ok { cpu with memory := fun a => if a = addr then data else cpu.memory a }
  else .error .indexOutOfBounds

/-- `CPU::mem_read_u16`: little-endian; `lo` read first at `pos`, then `hi`
at `pos + 1`, result `(hi << 8) | lo`. -/
def mem_read_u16 (cpu : CPU) (pos : Nat) : Except RunError Nat :=
  match mem_read cpu pos with
  | .error e => .error e
  | .ok lo =>
    match mem_read cpu (pos + 1) with
    | .error e => .error e
    | .ok hi => .ok ((hi <<< 8) ||| lo)

/-- `CPU::mem_write_u16`: `hi = (data >> 8) as u8`, `lo = (data & 0xff) as u8`,
low byte written at `pos`, high byte at `pos + 1`. -/
def mem_write_u16 (cpu : CPU) (pos data : Nat) : Except RunError CPU :=
  match mem_write cpu pos ((data &&& 0xff) % 256) with
  | .error e => .error e
  | .ok cpu1 => mem_write cpu1 (pos + 1) ((data >>> 8) % 256)

/-- `CPU::reset`: zero `a`/`x`/`y`, PC from the reset vector at 0xfffc;
the status byte and the memory are not written. -/
def reset (cpu : CPU) : Except RunError CPU :=
  let cpu1 := { cpu with register_a := 0, register_x := 0, register_y := 0 }
  match mem_read_u16 cpu1 0xfffc with
  | .error e => .error e
  | .ok pc => .ok { cpu1 with program_counter := pc }

/-- `CPU::load`: `self.memory[0x8000 .. 0x8000 + program.len()]
.copy_from_slice(&program)`, then `program_counter = 0x8000`, then the reset
vector is written.  The slice-range bounds check happens before any byte is
copied, so an oversized program panics with no memory mutated. -/
def load (cpu : CPU) (program : List Nat) : Except RunError CPU :=
  if 0x8000 + program.length ≤ MEMSIZE then
    let m : Nat → Nat := fun a =>
      if 0x8000 ≤ a ∧ a < 0x8000 + program.length then
        program.getD (a - 0x8000) 0
      else cpu.memory a
    let copied : CPU := { cpu with memory := m, program_counter := 0x8000 }
    mem_write_u16 copied 0xfffc 0x8000
  else .error .indexOutOfBounds

/-- `CPU::update_processor_status`: set `flag` in `status` when `condition`
holds, clear it (`status &= !flag`, i.e. and with `flag ^^^ 0xff`) otherwise. -/
def update_processor_status (cpu : CPU) (condition : Bool) (flag : Nat) : CPU :=
  if condition then { cpu with status := cpu.status ||| flag }
  else { cpu with status := cpu.status &&& (flag ^^^ 0xff) }

/-- `CPU::update_status_z_n`: Zero (bit 1) from `value == 0`, then
Negative (bit 7) from `value & 0b10000000 != 0`. -/
def update_status_z_n (cpu : CPU) (value : Nat) : CPU :=
  let cpu1 := update_processor_status cpu (value == 0) 0b00000010
  update_processor_status cpu1 (value &&& 0b10000000 != 0) 0b10000000

/-- `CPU::get_operand_address`: the addressing-mode resolver.  `wrapping_add`
on `u8` is `% 256`, on `u16` is `% 65536`; the catch-all arm
`panic!("mode {:?} is not supported")` is the `modeNotSupported` error. -/
def get_operand_address (cpu : CPU) (mode : AddressingMode) : Except RunError Nat :=
  match mode with
  | .Immediate => .ok cpu.program_counter
  | .ZeroPage => mem_read cpu cpu.program_counter
  | .Absolute => mem_read_u16 cpu cpu.program_counter
  | .ZeroPage_X =>
    match mem_read cpu cpu.program_counter with
    | .error e => .error e
    | .ok pos => .ok ((pos + cpu.register_x) % 256)
  | .ZeroPage_Y =>
    match mem_read cpu cpu.program_counter with
    | .error e => .error e
    | .ok pos => .ok ((pos + cpu.register_y) % 256)
  | .Absolute_X =>
    match mem_read_u16 cpu cpu.program_counter with
    | .error e => .error e
    | .ok base => .ok ((base + cpu.register_x) % 65536)
  | .Absolute_Y =>
    match mem_read_u16 cpu cpu.program_counter with
    | .error e => .error e
    | .ok base => .ok ((base + cpu.register_y) % 65536)
  | .Indirect_X =>
    match mem_read cpu cpu.program_counter with
    | .error e => .error e
    | .ok base =>
      match mem_read cpu ((base + cpu.register_x) % 256),
            mem_read cpu (((base + cpu.register_x) % 256 + 1) % 256) with
      | .error e, _ => .error e
      | .ok _, .error e => .error e
      | .ok lo, .ok hi => .ok ((hi <<< 8) ||| lo)
  | .Indirect_Y =>
    match mem_read cpu cpu.program_counter with
    | .error e => .error e
    | .ok base =>
      match mem_read cpu base, mem_read cpu ((base + 1) % 256) with
      | .error e, _ => .error e
      | .ok _, .error e => .error e
      | .ok lo, .ok hi => .ok ((((hi <<< 8) ||| lo) + cpu.register_y) % 65536)
  | _ => .error .modeNotSupported

/-- `CPU::inx`: increment X with 8-bit wraparound, update Zero/Negative. -/
def inx (cpu : CPU) : CPU :=
  let cpu1 := { cpu with register_x := (cpu.register_x + 1) % 256 }
  update_status_z_n cpu1 cpu1.register_x

/-- `CPU::lda`: load the operand byte into register A, update Zero/Negative. -/
def lda (cpu : CPU) (mode : AddressingMode) : Except RunError CPU :=
  match get_operand_address cpu mode with
  | .error e => .error e
  | .ok addr =>
    match mem_read cpu addr with
    | .error e => .error e
    | .ok value => .ok (update_status_z_n { cpu with register_a := value } value)

/-- `CPU::ldx`: load the operand byte into register X, update Zero/Negative. -/
def ldx (cpu : CPU) (mode : AddressingMode) : Except RunError CPU :=
  match get_operand_address cpu mode with
  | .error e => .error e
  | .ok addr =>
    match mem_read cpu addr with
    | .error e => .error e
    | .ok value => .ok (update_status_z_n { cpu with register_x := value } value)

/-- `CPU::ldy`: load the operand byte into register Y, update Zero/Negative. -/
def ldy (cpu : CPU) (mode : AddressingMode) : Except RunError CPU :=
  match get_operand_address cpu mode with
  | .error e => .error e
  | .ok addr =>
    match mem_read cpu addr with
    | .error e => .error e
    | .ok value => .ok (update_status_z_n { cpu with register_y := value } value)

/-- `CPU::sta`: store register A at the resolved address; no flag effect. -/
def sta (cpu : CPU) (mode : AddressingMode) : Except RunError CPU :=
  match get_operand_address cpu mode with
  | .error e => .error e
  | .ok addr => mem_write cpu addr cpu.register_a

/-- `CPU::stx`: store register X at the resolved address; no flag effect. -/
def stx (cpu : CPU) (mode : AddressingMode) : Except RunError CPU :=
  match get_operand_address cpu mode with
  | .error e => .error e
  | .ok addr => mem_write cpu addr cpu.register_x

/-- `CPU::sty`: store register Y at the resolved address; no flag effect. -/
def sty (cpu : CPU) (mode : AddressingMode) : Except RunError CPU :=
  match get_operand_address cpu mode with
  | .error e => .error e
  | .ok addr => mem_write cpu addr cpu.register_y

/-- `CPU::tax`: copy register A into register X, update Zero/Negative. -/
def tax (cpu : CPU) : CPU :=
  let cpu1 := { cpu with register_x := cpu.register_a }
  update_status_z_n cpu1 cpu1.register_x

/-- Modelled from the spec: the opcode-descriptor record of `ops.rs`
(`ops::OpCode`), a file that is not among the sources; only `cpu.rs`, which
uses its `mode` and `cycles` fields, is.  Per §2/§3 of the spec a descriptor
holds the opcode byte, mnemonic, addressing mode, instruction length in
bytes, and base cycle count. -/
structure OpCode where
  code : Nat
  mnemonic : String
  len : Nat
  cycles : Nat
  mode : AddressingMode
deriving DecidableEq

/-- Modelled from the spec: `ops::OPCODES_MAP` of the missing `ops.rs`, the
static opcode byte → descriptor table (§2, §3: "a closed, pre-populated
set").  Lengths and base cycle counts are the canonical 6502 values the
spec's descriptor fields denote.  The entries cover every opcode dispatched
by `CPU::run`, plus representative table entries (INY, TAY, NOP, ADC
immediate — families required by §4.4) whose handlers in `cpu.rs` are
unimplemented stubs, reached through the `todo!` arm of `run`. -/
def OPCODES_MAP (code : Nat) : Option OpCode :=
  match code with
  | 0x00 => some ⟨0x00, "BRK", 1, 7, .Implied⟩
  | 0xaa => some ⟨0xaa, "TAX", 1, 2, .Implied⟩
  | 0xe8 => some ⟨0xe8, "INX", 1, 2, .Implied⟩
  | 0xa9 => some ⟨0xa9, "LDA", 2, 2, .Immediate⟩
  | 0xa5 => some ⟨0xa5, "LDA", 2, 3, .ZeroPage⟩
  | 0xb5 => some ⟨0xb5, "LDA", 2, 4, .ZeroPage_X⟩
  | 0xad => some ⟨0xad, "LDA", 3, 4, .Absolute⟩
  | 0xbd => some ⟨0xbd, "LDA", 3, 4, .Absolute_X⟩
  | 0xb9 => some ⟨0xb9, "LDA", 3, 4, .Absolute_Y⟩
  | 0xa1 => some ⟨0xa1, "LDA", 2, 6, .Indirect_X⟩
  | 0xb1 => some ⟨0xb1, "LDA", 2, 5, .Indirect_Y⟩
  | 0xa2 => some ⟨0xa2, "LDX", 2, 2, .Immediate⟩
  | 0xa6 => some ⟨0xa6, "LDX", 2, 3, .ZeroPage⟩
  | 0xb6 => some ⟨0xb6, "LDX", 2, 4, .ZeroPage_Y⟩
  | 0xae => some ⟨0xae, "LDX", 3, 4, .Absolute⟩
  | 0xbe => some ⟨0xbe, "LDX", 3, 4, .Absolute_Y⟩
  | 0xa0 => some ⟨0xa0, "LDY", 2, 2, .Immediate⟩
  | 0xa4 => some ⟨0xa4, "LDY", 2, 3, .ZeroPage⟩
  | 0xb4 => some ⟨0xb4, "LDY", 2, 4, .ZeroPage_X⟩
  | 0xac => some ⟨0xac, "LDY", 3, 4, .Absolute⟩
  | 0xbc => some ⟨0xbc, "LDY", 3, 4, .Absolute_X⟩
  | 0x85 => some ⟨0x85, "STA", 2, 3, .ZeroPage⟩
  | 0x95 => some ⟨0x95, "STA", 2, 4, .ZeroPage_X⟩
  | 0x8d => some ⟨0x8d, "STA", 3, 4, .Absolute⟩
  | 0x9d => some ⟨0x9d, "STA", 3, 5, .Absolute_X⟩
  | 0x99 => some ⟨0x99, "STA", 3, 5, .Absolute_Y⟩
  | 0x81 => some ⟨0x81, "STA", 2, 6, .Indirect_X⟩
  | 0x91 => some ⟨0x91, "STA", 2, 6, .Indirect_Y⟩
  | 0x86 => some ⟨0x86, "STX", 2, 3, .ZeroPage⟩
  | 0x96 => some ⟨0x96, "STX", 2, 4, .ZeroPage_Y⟩
  | 0x8e => some ⟨0x8e, "STX", 3, 4, .Absolute⟩
  | 0x84 => some ⟨0x84, "STY", 2, 3, .ZeroPage⟩
  | 0x94 => some ⟨0x94, "STY", 2, 4, .ZeroPage_X⟩
  | 0x8c => some ⟨0x8c, "STY", 3, 4, .Absolute⟩
  | 0xc8 => some ⟨0xc8, "INY", 1, 2, .Implied⟩
  | 0xa8 => some ⟨0xa8, "TAY", 1, 2, .Implied⟩
  | 0xea => some ⟨0xea, "NOP", 1, 2, .Implied⟩
  | 0x69 => some ⟨0x69, "ADC", 2, 2, .Immediate⟩
  | _ => none

/-- The arms of the `match opcode` in `CPU::run` other than BRK, applied to
the state after the `program_counter += 1` fetch increment.  The catch-all
arm is `todo!("opcode {:#02x}", opcode)`. -/
def handle (cpu : CPU) (opcode : Nat) (op : OpCode) : Except RunError CPU :=
  if opcode = 0xe8 then .ok (inx cpu)
  else if opcode ∈ [0xa9, 0xa5, 0xb5, 0xad, 0xbd, 0xb9, 0xa1, 0xb1] then lda cpu op.mode
  else if opcode ∈ [0xa2, 0xa6, 0xb6, 0xae, 0xbe] then ldx cpu op.mode
  else if opcode ∈ [0xa0, 0xa4, 0xb4, 0xac, 0xbc] then ldy cpu op.mode
  else if opcode ∈ [0x85, 0x95, 0x8d, 0x9d, 0x99, 0x81, 0x91] then sta cpu op.mode
  else if opcode ∈ [0x86, 0x96, 0x8e] then stx cpu op.mode
  else if opcode ∈ [0x84, 0x94, 0x8c] then sty cpu op.mode
  else if opcode = 0xaa then .ok (tax cpu)
  else .error (.todoOpcode opcode)

/-- Outcome of one iteration of the dispatch loop in `CPU::run`: the BRK arm
returns (`halt`), every other implemented arm falls through to the PC advance
and loops (`cont`), and any panic is `fail`. -/
inductive StepResult where
  | halt (cpu : CPU)
  | cont (cpu : CPU)
  | fail (e : RunError)

/-- One iteration of the loop in `CPU::run`, in the source's order: fetch the
byte at PC (out-of-bounds panics), look the opcode up in `OPCODES_MAP`
(`unwrap` panics on a missing entry), increment PC by 1, dispatch — the BRK
arm returns before any further PC change — and finally
`program_counter += op.cycles as u16 - 1` (u16 wrapping, release semantics). -/
def step (cpu : CPU) : StepResult :=
  match mem_read cpu cpu.program_counter with
  | .error e => .fail e
  | .ok opcode =>
    match OPCODES_MAP opcode with
    | none => .fail (.unwrapNone opcode)
    | some op =>
      let cpu1 := { cpu with program_counter := cpu.program_counter + 1 }
      if opcode = 0 then .halt cpu1
      else
        match handle cpu1 opcode op with
        | .error e => .fail e
        | .ok c =>
          .cont { c with program_counter := (c.program_counter + (op.cycles - 1)) % 65536 }

/-- The loop of `CPU::run`, made total with a fuel parameter: `none` means
the fuel ran out with the machine still running (the Rust loop has no such
case; every terminating behaviour of `run` is a `some`). -/
def run (fuel : Nat) (cpu : CPU) : Option (Except RunError CPU) :=
  match fuel with
  | 0 => none
  | fuel' + 1 =>
    match step cpu with
    | .halt c => some (.ok c)
    | .fail e => some (.error e)
    | .cont c => run fuel' c

/-- `CPU::load_and_run`: load, reset, run (with fuel). -/
def load_and_run (fuel : Nat) (cpu : CPU) (program : List Nat) :
    Option (Except RunError CPU) :=
  match load cpu program with
  | .error e => some (.error e)
  | .ok c1 =>
    match reset c1 with
    | .error e => some (.error e)
    | .ok c2 => run fuel c2

/-! ## Helper lemmas -/

lemma testBit_two : ∀ i < 8, Nat.testBit 2 i = decide (i = 1) := by decide

lemma testBit_128 : ∀ i < 8, Nat.testBit 128 i = decide (i = 7) := by decide

lemma testBit_127 : ∀ i < 8, Nat.testBit 127 i = decide (i ≠ 7) := by decide

lemma testBit_253 : ∀ i < 8, Nat.testBit 253 i = decide (i ≠ 1) := by decide

lemma update_status_z_n_frame (cpu : CPU) (v : Nat) :
    (update_status_z_n cpu v).register_a = cpu.register_a ∧
    (update_status_z_n cpu v).register_x = cpu.register_x ∧
    (update_status_z_n cpu v).register_y = cpu.register_y ∧
    (update_status_z_n cpu v).program_counter = cpu.program_counter ∧
    (update_status_z_n cpu v).memory = cpu.memory := by
  unfold update_status_z_n update_processor_status
  by_cases h0 : (v == 0) = true <;> by_cases h7 : (v &&& 0b10000000 != 0) = true <;>
    simp [h0, h7]

/-- Bit-level description of `update_status_z_n`: bit 1 becomes `v == 0`,
bit 7 becomes `v &&& 0x80 != 0`, every other low bit keeps its value. -/
lemma update_status_z_n_testBit (cpu : CPU) (v : Nat) : ∀ i < 8,
    Nat.testBit (update_status_z_n cpu v).status i =
      if i = 1 then (v == 0)
      else if i = 7 then (v &&& 0x80 != 0)
      else Nat.testBit cpu.status i := by
  intro i hi
  unfold update_status_z_n update_processor_status
  by_cases h0 : v = 0 <;> by_cases h7 : v &&& 0x80 = 0 <;>
    interval_cases i <;>
      simp_all [testBit_two, testBit_127, testBit_128, testBit_253]

lemma mem_read_ok (cpu : CPU) (addr : Nat) (h : addr < MEMSIZE) :
    mem_read cpu addr = .ok (cpu.memory addr) := by
  simp [mem_read, h]

lemma mem_write_ok (cpu : CPU) (addr data : Nat) (h : addr < MEMSIZE) :
    mem_write cpu addr data =
      .ok { cpu with memory := fun a => if a = addr then data else cpu.memory a } := by
  simp [mem_write, h]

lemma mem_read_u16_ok (cpu : CPU) (pos : Nat) (h : pos + 1 < MEMSIZE) :
    mem_read_u16 cpu pos = .ok ((cpu.memory (pos + 1) <<< 8) ||| cpu.memory pos) := by
  rw [mem_read_u16, mem_read_ok cpu pos (by omega), mem_read_ok cpu (pos + 1) h]

lemma mem_write_u16_ok (cpu : CPU) (pos data : Nat) (h : pos + 1 < MEMSIZE) :
    mem_write_u16 cpu pos data =
      .ok { cpu with memory := fun a =>
        if a = pos + 1 then (data >>> 8) % 256
        else if a = pos then (data &&& 0xff) % 256
        else cpu.memory a } := by
  rw [mem_write_u16, mem_write_ok cpu pos _ (by omega)]
  show mem_write _ (pos + 1) _ = _
  rw [mem_write_ok _ (pos + 1) _ h]

/-- An `or` of a shifted value with a small value is an addition: the summands
occupy disjoint bit ranges. -/
lemma lor_two_pow_eq_add (k : Nat) : ∀ hi lo : Nat, lo < 2 ^ k →
    (hi * 2 ^ k) ||| lo = hi * 2 ^ k + lo := by
  induction k with
  | zero =>
    intro hi lo hlo
    have hz : lo = 0 := by omega
    subst hz
    simp
  | succ k ih =>
    intro hi lo hlo
    have e2 : hi * 2 ^ (k + 1) = (hi * 2 ^ k) * 2 := by ring
    have e0 : (hi * 2 ^ (k + 1)) % 2 = 0 := by
      rw [e2, Nat.mul_mod_left]
    have hbit : ((hi * 2 ^ (k + 1)) ||| lo) % 2 = lo % 2 := by
      have hA : (hi * 2 ^ (k + 1)).testBit 0 = false :=
        Nat.mod_two_eq_zero_iff_testBit_zero.mp e0
      have hor : ((hi * 2 ^ (k + 1)) ||| lo).testBit 0 = lo.testBit 0 := by
        rw [Nat.testBit_or, hA, Bool.false_or]
      simp only [Nat.testBit_zero, decide_eq_decide] at hor
      omega
    have hdiv : ((hi * 2 ^ (k + 1)) ||| lo) / 2 = (hi * 2 ^ k) ||| (lo / 2) := by
      rw [Nat.or_div_two, e2, Nat.mul_div_cancel _ (by omega : 0 < 2)]
    have hlo2 : lo / 2 < 2 ^ k := by
      have hp : 2 ^ (k + 1) = 2 ^ k * 2 := by ring
      rw [hp] at hlo
      omega
    have recomb := Nat.div_add_mod ((hi * 2 ^ (k + 1)) ||| lo) 2
    rw [hdiv, hbit, ih hi (lo / 2) hlo2] at recomb
    rw [← recomb, e2]
    omega

lemma lor_shiftLeft_eq_add (hi lo : Nat) (hlo : lo < 256) :
    (hi <<< 8) ||| lo = hi * 256 + lo := by
  have h := lor_two_pow_eq_add 8 hi lo (by norm_num; omega)
  rw [Nat.shiftLeft_eq]
  norm_num at h ⊢
  exact h

/-! ## The claims -/

/-- Claim C2: for every 8-bit value `v` and every prior status byte,
`update_status_z_n v` sets the Zero bit (bit 1) iff `v = 0` and the Negative
bit (bit 7) iff `v &&& 0x80 ≠ 0`, and leaves the other six status bits
exactly as they were before the call. -/
theorem claim_C2 (cpu : CPU) (v : Nat) :
    (Nat.testBit (update_status_z_n cpu v).status 1 = true ↔ v = 0) ∧
    (Nat.testBit (update_status_z_n cpu v).status 7 = true ↔ v &&& 0x80 ≠ 0) ∧
    (∀ i < 8, i ≠ 1 → i ≠ 7 →
      Nat.testBit (update_status_z_n cpu v).status i = Nat.testBit cpu.status i) := by
  refine ⟨?_, ?_, ?_⟩
  · rw [update_status_z_n_testBit cpu v 1 (by decide)]
    simp
  · rw [update_status_z_n_testBit cpu v 7 (by decide)]
    simp
  · intro i hi hne1 hne7
    rw [update_status_z_n_testBit cpu v i hi]
    simp [hne1, hne7]

/-- Witness for C2 at `v = 0x80` on a fresh CPU: Negative set, Zero clear,
other bits untouched. -/
theorem claim_C2_witness :
    (Nat.testBit (update_status_z_n CPU.new 0x80).status 1 = true ↔ (0x80 : Nat) = 0) ∧
    (Nat.testBit (update_status_z_n CPU.new 0x80).status 7 = true ↔ (0x80 : Nat) &&& 0x80 ≠ 0) ∧
    Nat.testBit (update_status_z_n CPU.new 0x80).status 3 = Nat.testBit CPU.new.status 3 :=
  ⟨(claim_C2 CPU.new 0x80).1, (claim_C2 CPU.new 0x80).2.1,
    (claim_C2 CPU.new 0x80).2.2 3 (by decide) (by decide) (by decide)⟩

/-- Claim C6: `reset` zeroes A/X/Y and sets the program counter to the
little-endian word at 0xfffc–0xfffd (the reset vector); the status byte and
every memory cell are left unchanged (the record update touches nothing
else). -/
theorem claim_C6 (cpu : CPU) :
    reset cpu = .ok { cpu with
      register_a := 0, register_x := 0, register_y := 0,
      program_counter := (cpu.memory 0xfffd <<< 8) ||| cpu.memory 0xfffc } := by
  rw [reset, mem_read_u16_ok _ 0xfffc (by decide)]

/-- Claim C7: writing a 16-bit word `w` at `addr` with `mem_write_u16` and
reading it back with `mem_read_u16` returns `w`, with the low byte stored at
`addr` and the high byte at `addr + 1`, whenever `addr + 1` is still a valid
index of the 0xffff-byte array. -/
theorem claim_C7 (cpu : CPU) (addr w : Nat) (h : addr + 1 < MEMSIZE)
    (hw : w < 65536) :
    ∃ c, mem_write_u16 cpu addr w = .ok c ∧
      mem_read_u16 c addr = .ok w ∧
      c.memory addr = w % 256 ∧
      c.memory (addr + 1) = w / 256 := by
  have hne : addr ≠ addr + 1 := by omega
  have hlo : (w &&& 0xff) % 256 = w % 256 := by
    have e := Nat.and_pow_two_sub_one_eq_mod w 8
    norm_num at e
    rw [e]
    omega
  have hhi : (w >>> 8) % 256 = w / 256 := by
    rw [Nat.shiftRight_eq_div_pow]
    norm_num
    omega
  refine ⟨_, mem_write_u16_ok cpu addr w h, ?_, ?_, ?_⟩
  · rw [mem_read_u16_ok _ addr h]
    simp [hne, hlo, hhi]
    rw [lor_shiftLeft_eq_add _ _ (by omega)]
    omega
  · simp [hne, hlo]
  · simp [hhi]

/-- Witness for C7 at `addr = 0x10`, `w = 0xabcd`: the round trip returns
0xabcd, with 0xcd stored at 0x10 and 0xab at 0x11. -/
theorem claim_C7_witness :
    Except.bind (mem_write_u16 CPU.new 0x10 0xabcd) (fun c => mem_read_u16 c 0x10) =
      .ok 0xabcd ∧
    (mem_write_u16 CPU.new 0x10 0xabcd).map (fun c => c.memory 0x10) = .ok 0xcd ∧
    (mem_write_u16 CPU.new 0x10 0xabcd).map (fun c => c.memory 0x11) = .ok 0xab := by
  obtain ⟨c, h1, h2, h3, h4⟩ := claim_C7 CPU.new 0x10 0xabcd (by decide) (by decide)
  refine ⟨?_, ?_, ?_⟩
  · rw [h1]
    simpa [Except.bind] using h2
  · rw [h1]
    simp only [Except.map]
    rw [h3]
  · rw [h1]
    simp only [Except.map]
    rw [show (0x11 : Nat) = 0x10 + 1 from rfl, h4]

/-- Claim C8: a `load` whose program does not fit between the load origin
0x8000 and the top of the 0xffff-byte memory fails (the slice bounds panic),
and in the model the failing call returns only the error — no memory cell,
register or the program counter of the input state has been modified
(the Rust bounds check precedes every byte copy). -/
theorem claim_C8 (cpu : CPU) (program : List Nat)
    (h : 0x8000 + program.length > MEMSIZE) :
    load cpu program = .error .indexOutOfBounds := by
  simp only [load]
  rw [if_neg]
  omega

theorem claim_C8_witness :
    load CPU.new (List.replicate 0x8000 0) = .error .indexOutOfBounds :=
  claim_C8 CPU.new (List.replicate 0x8000 0)
    (by rw [List.length_replicate]; decide)

/-- Claim C10: a successful `load` sets the program counter directly to
0x8000, copies the program into memory from 0x8000 on, and writes 0x8000
little-endian into the reset vector (0x00 at 0xfffc, 0x80 at 0xfffd);
registers A, X, Y and the status byte are untouched, and memory outside the
program image and the reset vector keeps its old contents. -/
theorem claim_C10 (cpu : CPU) (program : List Nat)
    (h : 0x8000 + program.length ≤ MEMSIZE) :
    ∃ c, load cpu program = .ok c ∧
      c.program_counter = 0x8000 ∧
      c.register_a = cpu.register_a ∧
      c.register_x = cpu.register_x ∧
      c.register_y = cpu.register_y ∧
      c.status = cpu.status ∧
      c.memory 0xfffc = 0x00 ∧
      c.memory 0xfffd = 0x80 ∧
      (∀ i < program.length, 0x8000 + i ≠ 0xfffc → 0x8000 + i ≠ 0xfffd →
        c.memory (0x8000 + i) = program.getD i 0) ∧
      (∀ a, (a < 0x8000 ∨ 0x8000 + program.length ≤ a) →
        a ≠ 0xfffc → a ≠ 0xfffd → c.memory a = cpu.memory a) := by
  simp only [load]
  rw [if_pos h, mem_write_u16_ok _ 0xfffc 0x8000 (by decide)]
  refine ⟨_, rfl, rfl, rfl, rfl, rfl, rfl,
    by simp [show ((0x8000 : Nat) &&& 0xff) % 256 = 0 from by decide],
    by simp [show ((0x8000 : Nat) >>> 8) % 256 = 0x80 from by decide], ?_, ?_⟩
  · intro i hi h1 h2
    simp only [if_neg h2, if_neg h1]
    have hc : 0x8000 ≤ 0x8000 + i ∧ 0x8000 + i < 0x8000 + program.length := by omega
    rw [if_pos hc, Nat.add_sub_cancel_left]
  · intro a ha h1 h2
    simp only [if_neg h2, if_neg h1]
    have hc : ¬(0x8000 ≤ a ∧ a < 0x8000 + program.length) := by omega
    rw [if_neg hc]

/-- Witness for C10: loading `[0xa9, 0x05, 0x00]` into a fresh CPU sets
PC = 0x8000, leaves registers and status at 0, writes the reset vector, puts
the first program byte at 0x8000 and leaves unrelated memory untouched. -/
theorem claim_C10_witness :
    (load CPU.new [0xa9, 0x05, 0x00]).map CPU.program_counter = .ok 0x8000 ∧
    (load CPU.new [0xa9, 0x05, 0x00]).map CPU.status = .ok CPU.new.status ∧
    (load CPU.new [0xa9, 0x05, 0x00]).map (fun c => c.memory 0xfffc) = .ok 0x00 ∧
    (load CPU.new [0xa9, 0x05, 0x00]).map (fun c => c.memory 0xfffd) = .ok 0x80 ∧
    (load CPU.new [0xa9, 0x05, 0x00]).map (fun c => c.memory 0x8000) = .ok 0xa9 ∧
    (load CPU.new [0xa9, 0x05, 0x00]).map (fun c => c.memory 0x100) =
      .ok (CPU.new.memory 0x100) := by
  obtain ⟨c, h1, h2, h3, h4, h5, h6, h7, h8, h9, h10⟩ :=
    claim_C10 CPU.new [0xa9, 0x05, 0x00] (by decide)
  rw [h1]
  simp only [Except.map]
  refine ⟨by rw [h2], by rw [h6], by rw [h7], by rw [h8], ?_, ?_⟩
  · have := h9 0 (by decide) (by decide) (by decide)
    simpa using this
  · rw [h10 0x100 (Or.inl (by decide)) (by decide) (by decide)]

/-- Claim C3: ZeroPage,X and ZeroPage,Y resolution reads the base byte at the
program counter and adds the index register with 8-bit wraparound — the
effective address is `(base + index) % 256` and never exceeds 0x00ff. -/
theorem claim_C3 (cpu : CPU) (h : cpu.program_counter < MEMSIZE)
    (hx : cpu.register_x < 256) (hy : cpu.register_y < 256) :
    get_operand_address cpu .ZeroPage_X =
      .ok ((cpu.memory cpu.program_counter + cpu.register_x) % 256) ∧
    get_operand_address cpu .ZeroPage_Y =
      .ok ((cpu.memory cpu.program_counter + cpu.register_y) % 256) ∧
    (cpu.memory cpu.program_counter + cpu.register_x) % 256 ≤ 0xff ∧
    (cpu.memory cpu.program_counter + cpu.register_y) % 256 ≤ 0xff := by
  refine ⟨?_, ?_, by omega, by omega⟩
  · simp only [get_operand_address]
    rw [mem_read_ok cpu _ h]
  · simp only [get_operand_address]
    rw [mem_read_ok cpu _ h]

/-- A state whose zero-page base byte is 0xff with X = 2 (and Y = 3),
exercising the wraparound of zero-page indexed addressing. -/
def c3cpu : CPU :=
  { CPU.new with register_x := 2, register_y := 3, memory := fun _ => 0xff }

/-- Witness for C3: base 0xff with index 0x02 resolves to 0x0001 (wraps
inside the zero page), not 0x0101. -/
theorem claim_C3_witness :
    get_operand_address c3cpu .ZeroPage_X = .ok 0x01 ∧
    get_operand_address c3cpu .ZeroPage_Y = .ok 0x02 := by
  have h := claim_C3 c3cpu (by decide) (by decide) (by decide)
  exact ⟨h.1.trans (by simp [c3cpu, CPU.new]), h.2.1.trans (by simp [c3cpu, CPU.new])⟩

/-- Claim C4: Indirect,X adds X to the base byte with 8-bit wraparound and
dereferences the two zero-page pointer bytes (the second wrapping within the
zero page) little-endian; Indirect,Y dereferences the little-endian pointer
at the base byte (high-byte fetch wrapping in the zero page) and then adds Y
with 16-bit wraparound. -/
theorem claim_C4 (cpu : CPU) (h : cpu.program_counter < MEMSIZE)
    (hx : cpu.register_x < 256) (hy : cpu.register_y < 256)
    (hb : cpu.memory cpu.program_counter < 256) :
    get_operand_address cpu .Indirect_X =
      .ok ((cpu.memory (((cpu.memory cpu.program_counter + cpu.register_x) % 256 + 1) % 256) <<< 8) |||
        cpu.memory ((cpu.memory cpu.program_counter + cpu.register_x) % 256)) ∧
    get_operand_address cpu .Indirect_Y =
      .ok ((((cpu.memory ((cpu.memory cpu.program_counter + 1) % 256) <<< 8) |||
        cpu.memory (cpu.memory cpu.program_counter)) + cpu.register_y) % 65536) := by
  have hm : MEMSIZE = 65535 := rfl
  have hp1 : (cpu.memory cpu.program_counter + cpu.register_x) % 256 < MEMSIZE := by
    have := Nat.mod_lt (cpu.memory cpu.program_counter + cpu.register_x)
      (show 0 < 256 by norm_num)
    omega
  have hp2 : ((cpu.memory cpu.program_counter + cpu.register_x) % 256 + 1) % 256 < MEMSIZE := by
    have := Nat.mod_lt ((cpu.memory cpu.program_counter + cpu.register_x) % 256 + 1)
      (show 0 < 256 by norm_num)
    omega
  have hp3 : cpu.memory cpu.program_counter < MEMSIZE := by omega
  have hp4 : (cpu.memory cpu.program_counter + 1) % 256 < MEMSIZE := by
    have := Nat.mod_lt (cpu.memory cpu.program_counter + 1) (show 0 < 256 by norm_num)
    omega
  constructor
  · simp only [get_operand_address, mem_read_ok cpu _ h, mem_read_ok cpu _ hp1,
      mem_read_ok cpu _ hp2]
  · simp only [get_operand_address, mem_read_ok cpu _ h, mem_read_ok cpu _ hp3,
      mem_read_ok cpu _ hp4]

/-- A state with a zero-page pointer table: the Indirect,X pointer
`(0x04 + X) % 256 = 0x14` holds 0x7f77, and the Indirect,Y base pointer at
0x04 holds 0x7f67 (so 0x7f67 + Y = 0x7f77). -/
def c4mem : Nat → Nat := fun a =>
  if a = 0 then 0x04
  else if a = 0x14 then 0x77
  else if a = 0x15 then 0x7f
  else if a = 0x04 then 0x67
  else if a = 0x05 then 0x7f
  else 0

def c4cpu : CPU :=
  { CPU.new with register_x := 0x10, register_y := 0x10, memory := c4mem }

/-- Witness for C4: both indirect modes dereference the little-endian
zero-page pointers of `c4cpu` and resolve to 0x7f77. -/
theorem claim_C4_witness :
    get_operand_address c4cpu .Indirect_X = .ok 0x7f77 ∧
    get_operand_address c4cpu .Indirect_Y = .ok 0x7f77 := by
  have h := claim_C4 c4cpu (by decide) (by decide) (by decide) (by decide)
  exact ⟨h.1.trans (by simp [c4cpu, c4mem, CPU.new]),
    h.2.trans (by simp [c4cpu, c4mem, CPU.new])⟩

/-! ## Dispatch-loop lemmas -/

/-- The opcodes with a dispatching arm in the `match` of `CPU::run`; every
other opcode falls into the `todo!` catch-all. -/
def implemented_opcodes : List Nat :=
  [0x00, 0xe8, 0xa9, 0xa5, 0xb5, 0xad, 0xbd, 0xb9, 0xa1, 0xb1,
   0xa2, 0xa6, 0xb6, 0xae, 0xbe, 0xa0, 0xa4, 0xb4, 0xac, 0xbc,
   0x85, 0x95, 0x8d, 0x9d, 0x99, 0x81, 0x91, 0x86, 0x96, 0x8e,
   0x84, 0x94, 0x8c, 0xaa]

lemma handle_unimplemented (cpu : CPU) (b : Nat) (op : OpCode)
    (hb : b ∉ implemented_opcodes) :
    handle cpu b op = .error (.todoOpcode b) := by
  have hsub1 : ∀ x ∈ ([0xa9, 0xa5, 0xb5, 0xad, 0xbd, 0xb9, 0xa1, 0xb1] : List Nat),
      x ∈ implemented_opcodes := by decide
  have hsub2 : ∀ x ∈ ([0xa2, 0xa6, 0xb6, 0xae, 0xbe] : List Nat),
      x ∈ implemented_opcodes := by decide
  have hsub3 : ∀ x ∈ ([0xa0, 0xa4, 0xb4, 0xac, 0xbc] : List Nat),
      x ∈ implemented_opcodes := by decide
  have hsub4 : ∀ x ∈ ([0x85, 0x95, 0x8d, 0x9d, 0x99, 0x81, 0x91] : List Nat),
      x ∈ implemented_opcodes := by decide
  have hsub5 : ∀ x ∈ ([0x86, 0x96, 0x8e] : List Nat),
      x ∈ implemented_opcodes := by decide
  have hsub6 : ∀ x ∈ ([0x84, 0x94, 0x8c] : List Nat),
      x ∈ implemented_opcodes := by decide
  rw [handle]
  rw [if_neg (fun he => hb (by rw [he]; decide))]
  rw [if_neg (fun hm => hb (hsub1 b hm))]
  rw [if_neg (fun hm => hb (hsub2 b hm))]
  rw [if_neg (fun hm => hb (hsub3 b hm))]
  rw [if_neg (fun hm => hb (hsub4 b hm))]
  rw [if_neg (fun hm => hb (hsub5 b hm))]
  rw [if_neg (fun hm => hb (hsub6 b hm))]
  rw [if_neg (fun he => hb (by rw [he]; decide))]

/-- Fetching BRK: one loop iteration returns with only the PC advanced by 1. -/
lemma step_brk (cpu : CPU) (h : cpu.program_counter < MEMSIZE)
    (h0 : cpu.memory cpu.program_counter = 0) :
    step cpu = .halt { cpu with program_counter := cpu.program_counter + 1 } := by
  simp only [step, mem_read_ok cpu _ h, h0]
  simp [OPCODES_MAP]

/-- A halting iteration can only come from fetching opcode 0x00 in bounds,
and it changes nothing but the PC. -/
lemma step_halt_inv (cpu c : CPU) (h : step cpu = .halt c) :
    cpu.program_counter < MEMSIZE ∧ cpu.memory cpu.program_counter = 0 ∧
    c = { cpu with program_counter := cpu.program_counter + 1 } := by
  by_cases hpc : cpu.program_counter < MEMSIZE
  · by_cases h0 : cpu.memory cpu.program_counter = 0
    · have hs := step_brk cpu hpc h0
      rw [h] at hs
      injection hs with hc
      exact ⟨hpc, h0, hc⟩
    · simp only [step, mem_read_ok cpu _ hpc] at h
      rcases hop : OPCODES_MAP (cpu.memory cpu.program_counter) with _ | op
      · simp only [hop] at h
        exact StepResult.noConfusion h
      · simp only [hop, if_neg h0] at h
        rcases hh : handle { cpu with program_counter := cpu.program_counter + 1 }
            (cpu.memory cpu.program_counter) op with e | c2
        · simp only [hh] at h
          exact StepResult.noConfusion h
        · simp only [hh] at h
          exact StepResult.noConfusion h
  · simp only [step, mem_read, if_neg hpc] at h
    exact StepResult.noConfusion h

/-- A normal (`Except.ok`) return of `run` always comes from a final
iteration that fetched BRK. -/
lemma run_ok_brk : ∀ (fuel : Nat) (cpu c : CPU), run fuel cpu = some (.ok c) →
    ∃ c1 : CPU, c1.memory c1.program_counter = 0 ∧ step c1 = .halt c := by
  intro fuel
  induction fuel with
  | zero =>
    intro cpu c h
    simp [run] at h
  | succ n ih =>
    intro cpu c h
    rw [run] at h
    rcases hs : step cpu with c1 | c1 | e <;> rw [hs] at h
    · simp at h
      exact ⟨cpu, (step_halt_inv cpu c1 hs).2.1, by rw [hs, h]⟩
    · exact ih c1 c h
    · simp at h

/-- Claim C5: when the byte at the program counter is 0x00 (BRK), the loop
iteration halts with registers, status and memory untouched and the PC
advanced by exactly 1; conversely a halt only arises that way, and a normal
return of `run` only arises from a halting (BRK-fetching) iteration. -/
theorem claim_C5 :
    (∀ cpu : CPU, cpu.program_counter < MEMSIZE →
      cpu.memory cpu.program_counter = 0 →
      step cpu = .halt { cpu with program_counter := cpu.program_counter + 1 }) ∧
    (∀ cpu c : CPU, step cpu = .halt c →
      cpu.memory cpu.program_counter = 0 ∧
      c = { cpu with program_counter := cpu.program_counter + 1 }) ∧
    (∀ (fuel : Nat) (cpu c : CPU), run fuel cpu = some (.ok c) →
      ∃ c1 : CPU, c1.memory c1.program_counter = 0 ∧ step c1 = .halt c) :=
  ⟨step_brk,
   fun cpu c h => ⟨(step_halt_inv cpu c h).2.1, (step_halt_inv cpu c h).2.2⟩,
   run_ok_brk⟩

/-- Witness for C5: a fresh CPU has 0x00 at PC = 0, so a single iteration
halts with PC = 1 and everything else unchanged. -/
theorem claim_C5_witness :
    step CPU.new = .halt { CPU.new with program_counter := 1 } :=
  claim_C5.1 CPU.new (by decide) rfl

/-- Claim C9: an opcode byte with no entry in the opcode table makes the
iteration fail with the `unwrap` panic, and an opcode with an entry but
without an implemented handler fails with the `todo!` "unsupported
instruction" panic — in neither case does the loop continue or halt
normally. -/
theorem claim_C9 (cpu : CPU) (h : cpu.program_counter < MEMSIZE) :
    (OPCODES_MAP (cpu.memory cpu.program_counter) = none →
      step cpu = .fail (.unwrapNone (cpu.memory cpu.program_counter))) ∧
    (∀ op, OPCODES_MAP (cpu.memory cpu.program_counter) = some op →
      cpu.memory cpu.program_counter ∉ implemented_opcodes →
      step cpu = .fail (.todoOpcode (cpu.memory cpu.program_counter))) := by
  constructor
  · intro hnone
    simp only [step, mem_read_ok cpu _ h, hnone]
  · intro op hsome hnot
    have h0 : cpu.memory cpu.program_counter ≠ 0 := fun he => hnot (by rw [he]; decide)
    simp only [step, mem_read_ok cpu _ h, hsome]
    rw [if_neg h0, handle_unimplemented _ _ _ hnot]

/-- Witness for C9: opcode 0xff has no table entry (unwrap panic); opcode
0xc8 (INY) is in the table but has no handler (todo! panic). -/
theorem claim_C9_witness :
    step { CPU.new with memory := fun _ => 0xff } = .fail (.unwrapNone 0xff) ∧
    step { CPU.new with memory := fun _ => 0xc8 } = .fail (.todoOpcode 0xc8) :=
  ⟨(claim_C9 { CPU.new with memory := fun _ => 0xff } (by decide)).1 rfl,
   (claim_C9 { CPU.new with memory := fun _ => 0xc8 } (by decide)).2
     ⟨0xc8, "INY", 1, 2, .Implied⟩ rfl (by decide)⟩

/-- Claim C1 (failing input): `run` advances the PC by the descriptor's
cycle count, not its instruction length.  For the program
`[0xe8, 0xe8, 0x00]` (INX; INX; BRK) the INX descriptor has length 1 but
cycle count 2, so after the first INX the PC lands past the second INX,
which is never executed: X finishes at 1 (length-based dispatch would
finish with X = 2). -/
theorem claim_C1_cycles_not_len :
    (load_and_run 10 CPU.new [0xe8, 0xe8, 0x00]).map (Except.map CPU.register_x) =
      some (.ok 1) ∧
    (OPCODES_MAP 0xe8).map OpCode.len = some 1 ∧
    (OPCODES_MAP 0xe8).map OpCode.cycles = some 2 :=
  ⟨rfl, rfl, rfl⟩

end NESsie
